import Mathlib

/-!
Shallow embedding of `httpTunnelServer.go` (package guac): the HTTP tunnel
servlet bridging a Guacamole tunnel onto stateless HTTP requests.

The servlet's own control flow (`ServeHTTP`, `handleTunnelRequestCore`,
`doRead`, `stream`, `doWrite`, the connect branch) is translated directly
from the source.  External collaborators whose source is not available
(the `HttpTunnelMap` registry, the `*ErrGuac` error taxonomy, the
`Tunnel` and `InstructionReader` interfaces, the HTTP response writer)
are modelled from the specification at their interface boundary, as
input traces consumed by the embedded handlers and an output trace of
observable events.
-/

/-- Modelled from the spec: the error taxonomy (§7) of the repository's
tagged error type, whose source file is not under `src/`; one constructor
per kind referenced by `httpTunnelServer.go`. -/
inductive ErrKind where
  | ErrClient
  | ErrResourceNotFound
  | ErrConnectionClosed
  | ErrServer
  | ErrOther
  deriving DecidableEq, Repr

/-- Modelled from the spec: a Go `error` value as the servlet sees it —
either the repository's tagged `*ErrGuac` (a kind from §7 plus a message)
or an untagged error coming from `io.Copy`, `http.ResponseWriter.Write`
or `Tunnel.Close`. -/
inductive GoError where
  | ErrGuac (kind : ErrKind) (message : String)
  | untagged (message : String)
  deriving DecidableEq, Repr

/-- Observable effects of handling one request: bytes written to the HTTP
response body (tagged by the write site in the source: an instruction
batch or uuid versus the literal `"0.;"` sentinel write), response
flushes, and registry/tunnel teardown calls. -/
inductive Event where
  | writeData (s : String)
  | writeSentinel
  | flush
  | deregister (tid : String)
  | closeTunnel (tid : String)
  deriving DecidableEq, Repr

/-- Modelled from the spec: one result of the Instruction Source's
`ReadSome` (§6): the returned bytes together with the returned error. -/
abbrev Fetch := String × Option GoError

/-- Result of running a handler: normal return with no error, return with
a Go error value, or a runtime panic (out-of-range slice, failed type
assertion). -/
inductive Outcome where
  | ok
  | error (e : GoError)
  | panicked
  deriving DecidableEq, Repr

/-- Result of `ServeHTTP`: normal completion, an error rendered through
`sendError` (carrying the kind and the message shown to the client), or a
runtime panic. -/
inductive HOutcome where
  | ok
  | handledError (kind : ErrKind) (shown : String)
  | panicked
  deriving DecidableEq, Repr

/-- Character-list length of a string; models Go `len` on the ASCII
queries, uuids and instruction bytes this servlet handles. -/
def strLen (s : String) : Nat := s.data.length

/-- Character-list prefix; models the Go slice `s[0:n]`. -/
def strTake (s : String) (n : Nat) : String := ⟨s.data.take n⟩

/-- Character-list drop; models the Go slice `s[n:]`. -/
def strDrop (s : String) (n : Nat) : String := ⟨s.data.drop n⟩

/-- Models Go `strings.HasPrefix`. -/
def strStartsWith (s p : String) : Bool := s.data.take p.data.length == p.data

/-- `ReadPrefix` in the source: `"read:"`. -/
def readPfx : String := "read:"

/-- `WritePrefix` in the source: `"write:"`. -/
def writePfx : String := "write:"

/-- `ReadPrefixLength` in the source. -/
def readPfxLen : Nat := strLen readPfx

/-- `WritePrefixLength` in the source. -/
def writePfxLen : Nat := strLen writePfx

/-- `UuidLength` in the source: 36. -/
def uuidLength : Nat := 36

/-- Modelled from the spec: `HttpTunnelMap.Put` (§4.1), reduced to the set
of registered identities (`Put` overwrites silently on collision, which at
the level of registered identities is idempotent insertion). -/
def regPut (reg : List String) (tid : String) : List String :=
  if tid ∈ reg then reg else tid :: reg

/-- Modelled from the spec: `HttpTunnelMap.Remove` (§4.1), idempotent
removal of an identity. -/
def regRemove (reg : List String) (tid : String) : List String :=
  reg.filter (fun x => x != tid)

deriving instance DecidableEq for Except

/-- The state threaded through one request: the servlet's registry of
tunnel identities, the environment of the external collaborators
(response-write results, instruction-source availability signals, the
tunnel's queued-readers signal, the `io.Copy` and `Tunnel.Close` results,
the session-establishment result, whether the response supports
`http.Flusher`), and the trace of observable events.  The collaborator
fields are input traces consumed in call order; an exhausted trace
defaults to success / `false`. -/
structure SrvSt where
  reg : List String
  avail : List Bool
  queued : List Bool
  writes : List (Option String)
  flusher : Bool
  connectRes : Except String String
  copyRes : Option String
  closeRes : Option String
  events : List Event
  deriving DecidableEq, Repr

/-- Pop the next collaborator boolean (exhausted trace defaults to
`false`). -/
def popB : List Bool → Bool × List Bool
  | [] => (false, [])
  | b :: r => (b, r)

/-- Pop the next response-write result (`none` = the write succeeded;
exhausted trace defaults to success). -/
def popW : List (Option String) → Option String × List (Option String)
  | [] => (none, [])
  | w :: r => (w, r)

/-- Lines 255-268 of the source: the code after `stream`'s read loop.
On a pending fetch error, deregister and close the tunnel; then write the
end-of-instructions marker `"0.;"` (whose own failure is returned as an
untagged error) and flush. -/
def streamFinish (tid : String) (err : Option GoError) (st : SrvSt) :
    SrvSt × Option GoError :=
  let st :=
    match err with
    | some _ =>
      { st with reg := regRemove st.reg tid,
                events := st.events ++ [Event.deregister tid, Event.closeTunnel tid] }
    | none => st
  let (w, ws) := popW st.writes
  let st := { st with writes := ws }
  match w with
  | some m => (st, some (GoError.untagged m))
  | none =>
    let st := { st with events := st.events ++ [Event.writeSentinel] }
    let st := if st.flusher then { st with events := st.events ++ [Event.flush] } else st
    (st, none)

/-- Result of one body iteration of `stream`'s read loop: early return
with an error, break out of the loop, or continue to the next fetch. -/
inductive IterRes where
  | ret (st : SrvSt) (e : GoError)
  | brk (st : SrvSt)
  | cont (st : SrvSt)

/-- Lines 234-252 of the source: one body iteration of `stream`'s read
loop for a non-empty `message`: write the message to the response
(failure becomes an `ErrOther` tagged error), flush when the reader
reports nothing immediately available, and break when another reader
thread is queued on the tunnel. -/
def loopIter (message : String) (st : SrvSt) : IterRes :=
  let (w, ws) := popW st.writes
  let st := { st with writes := ws }
  match w with
  | some m => IterRes.ret st (GoError.ErrGuac ErrKind.ErrOther m)
  | none =>
    let st := { st with events := st.events ++ [Event.writeData message] }
    let (av, avl) := popB st.avail
    let st := { st with avail := avl }
    let st :=
      if !av && st.flusher then { st with events := st.events ++ [Event.flush] } else st
    let (q, ql) := popB st.queued
    let st := { st with queued := ql }
    if q then IterRes.brk st else IterRes.cont st

/-- Lines 229-268 of the source: `stream`'s read loop, entered with the
current `message` and the trace of future `ReadSome` results.  The loop
condition `len(message) > 0` is checked first; the body's error check,
write, flush and queued-readers break follow; the post statement fetches
the next `(message, err)` pair.  A fetch error with a non-empty message
is returned from the body; with an empty message the loop exits and the
teardown-plus-sentinel epilogue (`streamFinish`) runs.  The single Go
loop is expanded here into one equation per shape of the remaining fetch
trace, each with the identical body prologue; `streamLoop_unfold` below
re-states the three equations as the original single-body form. -/
def streamLoop (tid : String) : String → List Fetch → SrvSt → SrvSt × Option GoError
  | message, [], st =>
    if message = "" then streamFinish tid none st
    else
      match loopIter message st with
      | IterRes.ret st2 e => (st2, some e)
      | IterRes.brk st2 => streamFinish tid none st2
      | IterRes.cont st2 => streamFinish tid none st2
  | message, (m, some er) :: _, st =>
    if message = "" then streamFinish tid none st
    else
      match loopIter message st with
      | IterRes.ret st2 e => (st2, some e)
      | IterRes.brk st2 => streamFinish tid none st2
      | IterRes.cont st2 =>
        if m = "" then streamFinish tid (some er) st2 else (st2, some er)
  | message, (m, none) :: rest, st =>
    if message = "" then streamFinish tid none st
    else
      match loopIter message st with
      | IterRes.ret st2 e => (st2, some e)
      | IterRes.brk st2 => streamFinish tid none st2
      | IterRes.cont st2 => streamLoop tid m rest st2

/-- Lines 218-269 of the source: `stream`.  The first `ReadSome` is
special-cased — an error on the very first pull is returned before the
loop, before any body bytes are written. -/
def stream (tid : String) (fetches : List Fetch) (st : SrvSt) :
    SrvSt × Option GoError :=
  match fetches with
  | [] => streamLoop tid "" [] st
  | (_, some er) :: _ => (st, some er)
  | (m, none) :: rest => streamLoop tid m rest st

/-- Lines 204-208 of the source: the `ErrConnectionClosed` branch of
`doRead`'s teardown switch, after deregister and close — write the
end-of-instructions marker (its result is discarded: `_, _ =`) and
flush. -/
def readCCFinish (st : SrvSt) : SrvSt :=
  let (w, ws) := popW st.writes
  let st := { st with writes := ws }
  let st :=
    match w with
    | none => { st with events := st.events ++ [Event.writeSentinel] }
    | some _ => st
  if st.flusher then { st with events := st.events ++ [Event.flush] } else st

/-- Lines 200-202 and 211-212 of the source: `deregisterTunnel` followed
by `tunnel.Close()`, shared by both teardown branches of `doRead`. -/
def readTeardown (tid : String) (st : SrvSt) : SrvSt :=
  { st with reg := regRemove st.reg tid,
            events := st.events ++ [Event.deregister tid, Event.closeTunnel tid] }

/-- Lines 190-215 of the source: `doRead` after the headers — run
`stream` and switch on the resulting error: `nil` is success; a tagged
error deregisters and closes the tunnel, with the end-of-instructions
marker and flush added on the `ErrConnectionClosed` kind; an untagged
error hits the `err.(*ErrGuac)` type assertion and panics. -/
def doReadBody (tid : String) (fetches : List Fetch) (st : SrvSt) :
    SrvSt × Outcome :=
  match stream tid fetches st with
  | (st2, none) => (st2, Outcome.ok)
  | (st2, some (GoError.untagged _)) => (st2, Outcome.panicked)
  | (st2, some (GoError.ErrGuac k m)) =>
    if k = ErrKind.ErrConnectionClosed then
      (readCCFinish (readTeardown tid st2), Outcome.error (GoError.ErrGuac k m))
    else
      (readTeardown tid st2, Outcome.error (GoError.ErrGuac k m))

/-- Lines 169-216 of the source: `doRead`.  Resolve the tunnel (absence is
`ErrResourceNotFound`), set headers and flush them when the response is a
flusher, then run the streaming body. -/
def doRead (tid : String) (fetches : List Fetch) (st : SrvSt) :
    SrvSt × Outcome :=
  if tid ∈ st.reg then
    doReadBody tid fetches
      (if st.flusher then { st with events := st.events ++ [Event.flush] } else st)
  else (st, Outcome.error (GoError.ErrGuac ErrKind.ErrResourceNotFound "No such tunnel."))

/-- Lines 276-303 of the source: `doWrite`.  Resolve the tunnel (absence
is `ErrResourceNotFound`), relay the request body via `io.Copy`; on a
copy failure deregister the tunnel and assign `err = tunnel.Close()` —
so the value returned is the `Close` result, not the copy error. -/
def doWrite (tid : String) (st : SrvSt) : SrvSt × Outcome :=
  if tid ∈ st.reg then
    match st.copyRes with
    | none => (st, Outcome.ok)
    | some _ =>
      let st :=
        { st with reg := regRemove st.reg tid,
                  events := st.events ++ [Event.deregister tid, Event.closeTunnel tid] }
      match st.closeRes with
      | some cm => (st, Outcome.error (GoError.untagged cm))
      | none => (st, Outcome.ok)
  else (st, Outcome.error (GoError.ErrGuac ErrKind.ErrResourceNotFound "No such tunnel."))

/-- Lines 127-148 of the source: the `connect` branch of
`handleTunnelRequestCore`.  A failed session establishment surfaces as
`ErrResourceNotFound`; on success the tunnel is registered and its uuid
written as the response body, a body-write failure becoming an
`ErrServer` error with the tunnel left registered. -/
def doConnect (st : SrvSt) : SrvSt × Outcome :=
  match st.connectRes with
  | Except.error _ =>
    (st, Outcome.error (GoError.ErrGuac ErrKind.ErrResourceNotFound "No tunnel created."))
  | Except.ok uuid =>
    let st := { st with reg := regPut st.reg uuid }
    let (w, ws) := popW st.writes
    let st := { st with writes := ws }
    match w with
    | some m => (st, Outcome.error (GoError.ErrGuac ErrKind.ErrServer m))
    | none => ({ st with events := st.events ++ [Event.writeData uuid] }, Outcome.ok)

/-- Lines 120-164 of the source: `handleTunnelRequestCore`.  An empty
query is a client error; the literal `connect` runs the connect branch; a
query with the read (resp. write) prefix dispatches to `doRead`
(resp. `doWrite`) on the fixed-offset 36-character slice — which in Go
panics when the query is shorter than prefix-length + 36; anything else
is a client error. -/
def handleTunnelRequestCore (query : String) (fetches : List Fetch)
    (st : SrvSt) : SrvSt × Outcome :=
  if strLen query = 0 then
    (st, Outcome.error (GoError.ErrGuac ErrKind.ErrClient "No query string provided."))
  else if query = "connect" then doConnect st
  else if strStartsWith query readPfx then
    if strLen query < readPfxLen + uuidLength then (st, Outcome.panicked)
    else doRead (strTake (strDrop query readPfxLen) uuidLength) fetches st
  else if strStartsWith query writePfx then
    if strLen query < writePfxLen + uuidLength then (st, Outcome.panicked)
    else doWrite (strTake (strDrop query writePfxLen) uuidLength) st
  else
    (st, Outcome.error (GoError.ErrGuac ErrKind.ErrClient ("Invalid tunnel operation: " ++ query)))

/-- Lines 102-118 of the source: `ServeHTTP`.  A `nil` error is success;
otherwise the `err.(*ErrGuac)` type assertion is performed — panicking on
an untagged error — and the error is rendered via `sendError`, with the
real message for `ErrClient` and a generic message for every other
kind. -/
def serveHTTP (query : String) (fetches : List Fetch) (st : SrvSt) :
    SrvSt × HOutcome :=
  match handleTunnelRequestCore query fetches st with
  | (st', Outcome.ok) => (st', HOutcome.ok)
  | (st', Outcome.panicked) => (st', HOutcome.panicked)
  | (st', Outcome.error (GoError.untagged _)) => (st', HOutcome.panicked)
  | (st', Outcome.error (GoError.ErrGuac k m)) =>
    if k = ErrKind.ErrClient then (st', HOutcome.handledError k m)
    else (st', HOutcome.handledError k "Internal server error.")

/-- Whether an event is a write to the response body. -/
def isWrite : Event → Bool
  | Event.writeData _ => true
  | Event.writeSentinel => true
  | _ => false

/-- The body-write events of a trace, in order. -/
def writesOf (l : List Event) : List Event := l.filter isWrite

/-- The bytes an event contributes to the response body. -/
def evBytes : Event → String
  | Event.writeData s => s
  | Event.writeSentinel => "0.;"
  | _ => ""

/-- The response body produced by a trace. -/
def bodyOf : List Event → String
  | [] => ""
  | e :: rest => evBytes e ++ bodyOf rest

/-- How many times the sentinel-write site executed in a trace. -/
def sentinelCount (l : List Event) : Nat :=
  (l.filter (fun e => e == Event.writeSentinel)).length

/-- A 36-character tunnel identity used by concrete witnesses. -/
def uuidA : String := "00000000-0000-0000-0000-000000000000"

/-- A base state: empty registry, all collaborator traces defaulted, a
flushing response, session establishment failing. -/
def st0 : SrvSt :=
  { reg := [], avail := [], queued := [], writes := [], flusher := true,
    connectRes := Except.error "no session", copyRes := none, closeRes := none,
    events := [] }

example : strLen uuidA = 36 := by decide

example :
    (doRead uuidA [("4.test;", none)] { st0 with reg := [uuidA] }).2 = Outcome.ok := by
  decide

example :
    bodyOf (doRead uuidA [("4.test;", none)] { st0 with reg := [uuidA] }).1.events
      = "4.test;0.;" := by decide

/-! ### Helper lemmas about the string and registry primitives -/

lemma strStartsWith_length {q p : String} (h : strStartsWith q p = true) :
    strLen p ≤ strLen q := by
  simp only [strStartsWith, beq_iff_eq] at h
  have hl := congrArg List.length h
  simp only [List.length_take] at hl
  simp only [strLen]
  omega

lemma startsWith_read_ne_connect {q : String} (h : strStartsWith q readPfx = true) :
    q ≠ "connect" := by
  intro hq
  rw [hq] at h
  exact absurd h (by decide)

lemma startsWith_write_ne_connect {q : String} (h : strStartsWith q writePfx = true) :
    q ≠ "connect" := by
  intro hq
  rw [hq] at h
  exact absurd h (by decide)

lemma startsWith_read_len_ne_zero {q : String} (h : strStartsWith q readPfx = true) :
    strLen q ≠ 0 := by
  have h1 := strStartsWith_length h
  have h2 : strLen readPfx = 5 := by decide
  omega

lemma startsWith_write_len_ne_zero {q : String} (h : strStartsWith q writePfx = true) :
    strLen q ≠ 0 := by
  have h1 := strStartsWith_length h
  have h2 : strLen writePfx = 6 := by decide
  omega

lemma startsWith_write_not_read {q : String} (h : strStartsWith q writePfx = true) :
    strStartsWith q readPfx = false := by
  simp only [strStartsWith, beq_iff_eq] at h
  simp only [strStartsWith, beq_eq_false_iff_ne, ne_eq, beq_iff_eq]
  intro hr
  rw [show writePfx.data = ['w', 'r', 'i', 't', 'e', ':'] from by decide] at h
  rw [show readPfx.data = ['r', 'e', 'a', 'd', ':'] from by decide] at hr
  rcases hqd : q.data with _ | ⟨c, cs⟩
  · rw [hqd] at h
    simp at h
  · rw [hqd] at h hr
    simp only [List.length_cons, List.length_nil, List.take_succ_cons,
      List.cons.injEq] at h hr
    rw [h.1] at hr
    exact absurd hr.1 (by decide)

lemma mem_regPut (reg : List String) (tid : String) : tid ∈ regPut reg tid := by
  unfold regPut
  split
  · assumption
  · exact List.mem_cons_self tid reg

lemma not_mem_regRemove (reg : List String) (tid : String) :
    tid ∉ regRemove reg tid := by
  simp [regRemove, List.mem_filter]

/-! ### Claims C1, C7, C8, C9, C10 -/

/-- Claim C1: the claim states that a write-relay failure deregisters and
closes the tunnel and then propagates the primary relay error, a close
failure being logged only.  The code does deregister and close, but the
assignment `err = tunnel.Close()` replaces the primary `io.Copy` error:
when `Close` succeeds the handler returns `nil` (the failure is
swallowed), and when `Close` fails the `Close` error is returned instead
of the primary one.  This theorem evaluates the embedded `doWrite` at the
failing input and exhibits both behaviours. -/
theorem c1_doWrite_primary_error_replaced :
    (doWrite uuidA
        { st0 with reg := [uuidA], copyRes := some "connection reset by peer" }).2
      = Outcome.ok ∧
    (doWrite uuidA
        { st0 with reg := [uuidA], copyRes := some "connection reset by peer" }).1.events
      = [Event.deregister uuidA, Event.closeTunnel uuidA] ∧
    uuidA ∉ (doWrite uuidA
        { st0 with reg := [uuidA], copyRes := some "connection reset by peer" }).1.reg ∧
    (doWrite uuidA
        { st0 with reg := [uuidA], copyRes := some "connection reset by peer",
                   closeRes := some "close failed" }).2
      = Outcome.error (GoError.untagged "close failed") := by
  refine ⟨by decide, by decide, by decide, by decide⟩

/-- Claim C7: for an identity absent from the registry, `doRead` and
`doWrite` both return exactly the `ErrResourceNotFound` kind and no
other, and a failed connect surfaces that same kind, so the three
situations are indistinguishable to the client. -/
theorem c7_unknown_identity_not_found :
    (∀ tid fetches st, tid ∉ st.reg →
        doRead tid fetches st
          = (st, Outcome.error
              (GoError.ErrGuac ErrKind.ErrResourceNotFound "No such tunnel."))) ∧
    (∀ tid st, tid ∉ st.reg →
        doWrite tid st
          = (st, Outcome.error
              (GoError.ErrGuac ErrKind.ErrResourceNotFound "No such tunnel."))) ∧
    (∀ m fetches st, st.connectRes = Except.error m →
        handleTunnelRequestCore "connect" fetches st
          = (st, Outcome.error
              (GoError.ErrGuac ErrKind.ErrResourceNotFound "No tunnel created."))) := by
  refine ⟨?_, ?_, ?_⟩
  · intro tid fetches st h
    simp [doRead, h]
  · intro tid st h
    simp [doWrite, h]
  · intro m fetches st h
    simp only [handleTunnelRequestCore]
    rw [if_neg (by decide), if_pos trivial]
    simp [doConnect, h]

/-- Witness for C7 at concrete inputs: the empty registry of `st0` and
its failing session establishment. -/
theorem c7_witness :
    doRead uuidA [] st0
      = (st0, Outcome.error
          (GoError.ErrGuac ErrKind.ErrResourceNotFound "No such tunnel.")) ∧
    doWrite uuidA st0
      = (st0, Outcome.error
          (GoError.ErrGuac ErrKind.ErrResourceNotFound "No such tunnel.")) ∧
    handleTunnelRequestCore "connect" [] st0
      = (st0, Outcome.error
          (GoError.ErrGuac ErrKind.ErrResourceNotFound "No tunnel created.")) :=
  ⟨c7_unknown_identity_not_found.1 uuidA [] st0 (by decide),
   c7_unknown_identity_not_found.2.1 uuidA st0 (by decide),
   c7_unknown_identity_not_found.2.2 "no session" [] st0 rfl⟩

/-- Claim C8: when session establishment succeeds, the tunnel is
registered, and the subsequent write of the identity into the response
body fails, the handler returns an `ErrServer` error while the identity
stays registered in the registry. -/
theorem c8_connect_write_failure_keeps_registration
    (uuid m : String) (ws : List (Option String)) (fetches : List Fetch) (st : SrvSt)
    (hc : st.connectRes = Except.ok uuid) (hw : st.writes = some m :: ws) :
    handleTunnelRequestCore "connect" fetches st
      = ({ st with reg := regPut st.reg uuid, writes := ws },
         Outcome.error (GoError.ErrGuac ErrKind.ErrServer m)) ∧
    uuid ∈ (handleTunnelRequestCore "connect" fetches st).1.reg := by
  have hcore : handleTunnelRequestCore "connect" fetches st
      = ({ st with reg := regPut st.reg uuid, writes := ws },
         Outcome.error (GoError.ErrGuac ErrKind.ErrServer m)) := by
    simp only [handleTunnelRequestCore]
    rw [if_neg (by decide), if_pos trivial]
    simp [doConnect, hc, hw, popW]
  refine ⟨hcore, ?_⟩
  rw [hcore]
  exact mem_regPut st.reg uuid

/-- Witness for C8: a concrete connect whose identity write fails with a
broken pipe. -/
theorem c8_witness :
    handleTunnelRequestCore "connect" []
        { st0 with connectRes := Except.ok uuidA, writes := [some "broken pipe"] }
      = ({ st0 with connectRes := Except.ok uuidA, reg := [uuidA], writes := [] },
         Outcome.error (GoError.ErrGuac ErrKind.ErrServer "broken pipe")) ∧
    uuidA ∈ (handleTunnelRequestCore "connect" []
        { st0 with connectRes := Except.ok uuidA, writes := [some "broken pipe"] }).1.reg := by
  have h := c8_connect_write_failure_keeps_registration uuidA "broken pipe" [] []
    { st0 with connectRes := Except.ok uuidA, writes := [some "broken pipe"] } rfl rfl
  exact ⟨by rw [h.1]; decide, h.2⟩

/-- Claim C9: a query carrying the read (resp. write) prefix but shorter
than prefix length + 36 makes the fixed-offset Go slice
`query[p : p+36]` out of range, so request handling panics instead of
returning an error. -/
theorem c9_short_prefixed_query_panics (q : String) (fetches : List Fetch) (st : SrvSt) :
    (strStartsWith q readPfx = true → strLen q < readPfxLen + uuidLength →
      handleTunnelRequestCore q fetches st = (st, Outcome.panicked)) ∧
    (strStartsWith q writePfx = true → strLen q < writePfxLen + uuidLength →
      handleTunnelRequestCore q fetches st = (st, Outcome.panicked)) := by
  constructor
  · intro h hlt
    simp only [handleTunnelRequestCore]
    rw [if_neg (startsWith_read_len_ne_zero h), if_neg (startsWith_read_ne_connect h),
      if_pos h, if_pos hlt]
  · intro h hlt
    simp only [handleTunnelRequestCore]
    rw [if_neg (startsWith_write_len_ne_zero h), if_neg (startsWith_write_ne_connect h),
      if_neg (by rw [startsWith_write_not_read h]; exact Bool.false_ne_true),
      if_pos h, if_pos hlt]

/-- Witness for C9: the concrete short queries `read:x` and `write:x`
both panic. -/
theorem c9_witness :
    handleTunnelRequestCore "read:x" [] st0 = (st0, Outcome.panicked) ∧
    handleTunnelRequestCore "write:x" [] st0 = (st0, Outcome.panicked) :=
  ⟨(c9_short_prefixed_query_panics "read:x" [] st0).1 (by decide) (by decide),
   (c9_short_prefixed_query_panics "write:x" [] st0).2 (by decide) (by decide)⟩

/-- Claim C10: `ServeHTTP` asserts `err.(*ErrGuac)` on every non-nil
error, yet the sentinel-write failure in the streaming loop and the
`tunnel.Close()` result in the write relay are untagged errors, so on
such inputs the type assertion fails and request handling panics instead
of rendering an error response.  Both cited paths are evaluated here: a
read request whose sentinel write fails, and a write request whose body
copy and close both fail. -/
theorem c10_untagged_error_panics :
    (serveHTTP ("read:" ++ uuidA) []
        { st0 with reg := [uuidA], writes := [some "broken pipe"] }).2
      = HOutcome.panicked ∧
    (serveHTTP ("write:" ++ uuidA) []
        { st0 with reg := [uuidA], copyRes := some "connection reset",
                   closeRes := some "already closed" }).2
      = HOutcome.panicked := by
  refine ⟨by decide, by decide⟩

/-! ### Claim C3: the dispatch grammar -/

/-- Claim C3: dispatch on the query string — the empty query is a
client-class malformed-request error; the literal `connect` runs the
connect branch; a query with the read (resp. write) prefix, long enough
to hold the 36-character identity the grammar presupposes, dispatches to
`doRead` (resp. `doWrite`) on exactly the 36 characters at the fixed
offset, ignoring any trailing characters; every other query is a
client-class malformed-operation error. -/
theorem c3_dispatch_grammar :
    (∀ fetches st, handleTunnelRequestCore "" fetches st
        = (st, Outcome.error
            (GoError.ErrGuac ErrKind.ErrClient "No query string provided."))) ∧
    (∀ fetches st, handleTunnelRequestCore "connect" fetches st = doConnect st) ∧
    (∀ q fetches st, strStartsWith q readPfx = true →
        readPfxLen + uuidLength ≤ strLen q →
        handleTunnelRequestCore q fetches st
          = doRead (strTake (strDrop q readPfxLen) uuidLength) fetches st) ∧
    (∀ q fetches st, strStartsWith q writePfx = true →
        writePfxLen + uuidLength ≤ strLen q →
        handleTunnelRequestCore q fetches st
          = doWrite (strTake (strDrop q writePfxLen) uuidLength) st) ∧
    (∀ q fetches st, strLen q ≠ 0 → q ≠ "connect" →
        strStartsWith q readPfx = false → strStartsWith q writePfx = false →
        handleTunnelRequestCore q fetches st
          = (st, Outcome.error
              (GoError.ErrGuac ErrKind.ErrClient ("Invalid tunnel operation: " ++ q)))) := by
  refine ⟨?_, ?_, ?_, ?_, ?_⟩
  · intro fetches st
    simp [handleTunnelRequestCore, strLen]
  · intro fetches st
    simp only [handleTunnelRequestCore]
    rw [if_neg (by decide), if_pos trivial]
  · intro q fetches st h hlen
    simp only [handleTunnelRequestCore]
    rw [if_neg (startsWith_read_len_ne_zero h), if_neg (startsWith_read_ne_connect h),
      if_pos h, if_neg (by omega)]
  · intro q fetches st h hlen
    simp only [handleTunnelRequestCore]
    rw [if_neg (startsWith_write_len_ne_zero h), if_neg (startsWith_write_ne_connect h),
      if_neg (by rw [startsWith_write_not_read h]; exact Bool.false_ne_true),
      if_pos h, if_neg (by omega)]
  · intro q fetches st h0 hc hr hw
    simp only [handleTunnelRequestCore]
    rw [if_neg h0, if_neg hc, if_neg (by rw [hr]; exact Bool.false_ne_true),
      if_neg (by rw [hw]; exact Bool.false_ne_true)]

/-- Witness for C3: each grammar case at a concrete query, including
read/write queries carrying an ignored cache-busting suffix whose
extracted identity is exactly the 36 characters after the prefix. -/
theorem c3_witness :
    handleTunnelRequestCore "" [] st0
      = (st0, Outcome.error
          (GoError.ErrGuac ErrKind.ErrClient "No query string provided.")) ∧
    handleTunnelRequestCore "connect" [] st0 = doConnect st0 ∧
    handleTunnelRequestCore ("read:" ++ uuidA ++ "bust") [] st0
      = doRead uuidA [] st0 ∧
    handleTunnelRequestCore ("write:" ++ uuidA ++ "bust") [] st0
      = doWrite uuidA st0 ∧
    handleTunnelRequestCore "nonsense" [] st0
      = (st0, Outcome.error
          (GoError.ErrGuac ErrKind.ErrClient ("Invalid tunnel operation: " ++ "nonsense"))) := by
  refine ⟨c3_dispatch_grammar.1 [] st0, c3_dispatch_grammar.2.1 [] st0, ?_, ?_, ?_⟩
  · have h := c3_dispatch_grammar.2.2.1 ("read:" ++ uuidA ++ "bust") [] st0
      (by decide) (by decide)
    rw [h]
    rw [show strTake (strDrop ("read:" ++ uuidA ++ "bust") readPfxLen) uuidLength
        = uuidA from by decide]
  · have h := c3_dispatch_grammar.2.2.2.1 ("write:" ++ uuidA ++ "bust") [] st0
      (by decide) (by decide)
    rw [h]
    rw [show strTake (strDrop ("write:" ++ uuidA ++ "bust") writePfxLen) uuidLength
        = uuidA from by decide]
  · exact c3_dispatch_grammar.2.2.2.2 "nonsense" [] st0 (by decide) (by decide)
      (by decide) (by decide)

/-! ### Helper lemmas for the stream loop -/

lemma str_empty_append (s : String) : "" ++ s = s := by
  cases s
  rfl

lemma str_append_empty (s : String) : s ++ "" = s := by
  cases s with
  | mk d =>
    show String.mk (d ++ []) = String.mk d
    rw [List.append_nil]

lemma str_append_assoc (a b c : String) : a ++ b ++ c = a ++ (b ++ c) := by
  cases a with
  | mk da =>
    cases b with
    | mk db =>
      cases c with
      | mk dc =>
        show String.mk (da ++ db ++ dc) = String.mk (da ++ (db ++ dc))
        rw [List.append_assoc]

lemma writesOf_append (a b : List Event) :
    writesOf (a ++ b) = writesOf a ++ writesOf b := by
  simp [writesOf, List.filter_append]

lemma bodyOf_append (a b : List Event) : bodyOf (a ++ b) = bodyOf a ++ bodyOf b := by
  induction a with
  | nil => simp [bodyOf, str_empty_append]
  | cons e r ih =>
    show evBytes e ++ bodyOf (r ++ b) = evBytes e ++ bodyOf r ++ bodyOf b
    rw [ih, str_append_assoc]

lemma writesOf_cons (e : Event) (r : List Event) :
    writesOf (e :: r) = if isWrite e then e :: writesOf r else writesOf r := by
  simp [writesOf, List.filter_cons]

lemma sentinelCount_cons (e : Event) (r : List Event) :
    sentinelCount (e :: r)
      = sentinelCount r + (if e = Event.writeSentinel then 1 else 0) := by
  by_cases h : e = Event.writeSentinel <;> simp [sentinelCount, List.filter_cons, h]

lemma bodyOf_writesOf (l : List Event) : bodyOf (writesOf l) = bodyOf l := by
  induction l with
  | nil => rfl
  | cons e r ih =>
    simp only [writesOf] at ih ⊢
    cases e <;> simp [List.filter_cons, isWrite, bodyOf, evBytes, str_empty_append, ih]

lemma sentinelCount_writesOf (l : List Event) :
    sentinelCount (writesOf l) = sentinelCount l := by
  simp only [sentinelCount, writesOf, List.filter_filter]
  congr 1
  apply List.filter_congr
  intro a _
  cases a <;> rfl

/-- The state after one successful body iteration of the read loop: the
next write result, availability signal and queued signal are consumed,
the message is written, and a flush happens when the reader has nothing
ready and the response flushes. -/
def iterNext (msg : String) (st : SrvSt) : SrvSt :=
  { st with writes := st.writes.tail, avail := st.avail.tail, queued := st.queued.tail,
            events := st.events ++ [Event.writeData msg] ++
              (if !(st.avail.headD false) && st.flusher then [Event.flush] else []) }

lemma loopIter_eq (msg : String) (st : SrvSt) (hw : st.writes.headD none = none) :
    loopIter msg st =
      if st.queued.headD false then IterRes.brk (iterNext msg st)
      else IterRes.cont (iterNext msg st) := by
  rcases st with ⟨reg, avail, queued, writes, flusher, cr, co, cl, ev⟩
  rcases writes with _ | ⟨w, ws⟩
  · rcases avail with _ | ⟨a, al⟩ <;> rcases queued with _ | ⟨b, ql⟩ <;> rcases flusher
    all_goals try cases a
    all_goals try cases b
    all_goals simp [loopIter, iterNext, popW, popB]
  · have hw2 : w = none := hw
    subst hw2
    rcases avail with _ | ⟨a, al⟩ <;> rcases queued with _ | ⟨b, ql⟩ <;> rcases flusher
    all_goals try cases a
    all_goals try cases b
    all_goals simp [loopIter, iterNext, popW, popB]

lemma streamFinish_none_eq (tid : String) (st : SrvSt) (hw : st.writes = []) :
    streamFinish tid none st =
      ({ st with events := st.events ++ [Event.writeSentinel] ++
          (if st.flusher then [Event.flush] else []) }, none) := by
  rcases st with ⟨reg, avail, queued, writes, flusher, cr, co, cl, ev⟩
  simp only at hw
  subst hw
  rcases flusher <;> simp [streamFinish, popW]

lemma streamFinish_some_eq (tid : String) (e : GoError) (st : SrvSt)
    (hw : st.writes = []) :
    streamFinish tid (some e) st =
      ({ st with reg := regRemove st.reg tid,
                 events := st.events ++ [Event.deregister tid, Event.closeTunnel tid,
                   Event.writeSentinel] ++
                   (if st.flusher then [Event.flush] else []) }, none) := by
  rcases st with ⟨reg, avail, queued, writes, flusher, cr, co, cl, ev⟩
  simp only at hw
  subst hw
  rcases flusher <;> simp [streamFinish, popW]

lemma streamFinish_ok_writesOf (tid : String) (err : Option GoError) (st st' : SrvSt)
    (h : streamFinish tid err st = (st', none)) :
    writesOf st'.events = writesOf st.events ++ [Event.writeSentinel] := by
  rcases st with ⟨reg, avail, queued, writes, flusher, cr, co, cl, ev⟩
  rcases err <;> rcases writes with _ | ⟨w, ws⟩
  all_goals try rcases w with _ | m
  all_goals rcases flusher
  all_goals simp [streamFinish, popW] at h
  all_goals rw [← h]
  all_goals simp [writesOf_append, writesOf, List.filter_cons, isWrite]

lemma writesOf_iterNext (msg : String) (st : SrvSt) :
    writesOf (iterNext msg st).events
      = writesOf st.events ++ [Event.writeData msg] := by
  simp only [iterNext]
  split <;> simp [writesOf_append, writesOf, List.filter_cons, isWrite]

lemma loopIter_cases (msg : String) (st : SrvSt) :
    (∃ st2 e, loopIter msg st = IterRes.ret st2 e ∧
        writesOf st2.events = writesOf st.events) ∨
    (∃ st2, (loopIter msg st = IterRes.brk st2 ∨ loopIter msg st = IterRes.cont st2) ∧
        writesOf st2.events = writesOf st.events ++ [Event.writeData msg]) := by
  rcases hwl : st.writes with _ | ⟨w, ws⟩
  · right
    refine ⟨iterNext msg st, ?_, writesOf_iterNext msg st⟩
    have he := loopIter_eq msg st (by rw [hwl]; rfl)
    by_cases hq : st.queued.headD false = true
    · exact Or.inl (by rw [he, if_pos hq])
    · exact Or.inr (by rw [he, if_neg hq])
  · rcases w with _ | m
    · right
      refine ⟨iterNext msg st, ?_, writesOf_iterNext msg st⟩
      have he := loopIter_eq msg st (by rw [hwl]; rfl)
      by_cases hq : st.queued.headD false = true
      · exact Or.inl (by rw [he, if_pos hq])
      · exact Or.inr (by rw [he, if_neg hq])
    · left
      rcases st with ⟨reg, avail, queued, writes, flusher, cr, co, cl, ev⟩
      simp only at hwl
      subst hwl
      refine ⟨SrvSt.mk reg avail queued ws flusher cr co cl ev,
        GoError.ErrGuac ErrKind.ErrOther m, ?_, rfl⟩
      simp [loopIter, popW]

lemma streamLoop_unfold (tid msg : String) (fetches : List Fetch) (st : SrvSt) :
    streamLoop tid msg fetches st =
      if msg = "" then streamFinish tid none st
      else
        match loopIter msg st with
        | IterRes.ret st' e => (st', some e)
        | IterRes.brk st' => streamFinish tid none st'
        | IterRes.cont st' =>
          match fetches with
          | [] => streamFinish tid none st'
          | (m, some er) :: _ =>
            if m = "" then streamFinish tid (some er) st' else (st', some er)
          | (m, none) :: rest => streamLoop tid m rest st' := by
  cases fetches with
  | nil => rfl
  | cons f rest =>
    rcases f with ⟨m, e⟩
    rcases e with _ | er <;> rfl

lemma streamLoop_ok_writesOf (tid : String) (fetches : List Fetch) :
    ∀ (msg : String) (st st' : SrvSt),
      streamLoop tid msg fetches st = (st', none) →
      ∃ D : List String, writesOf st'.events
        = writesOf st.events ++ D.map Event.writeData ++ [Event.writeSentinel] := by
  induction fetches with
  | nil =>
    intro msg st st' h
    rw [streamLoop_unfold] at h
    by_cases hm : msg = ""
    · rw [if_pos hm] at h
      exact ⟨[], by simpa using streamFinish_ok_writesOf tid none st st' h⟩
    · rw [if_neg hm] at h
      rcases loopIter_cases msg st with ⟨st2, e, heq, hsh⟩ | ⟨st2, heq, hsh⟩
      · rw [heq] at h
        have h2 : ((st2, some e) : SrvSt × Option GoError) = (st', none) := h
        exact absurd h2 (by simp)
      · rcases heq with heq | heq <;> rw [heq] at h
        all_goals
          have h2 : streamFinish tid none st2 = (st', none) := h
          refine ⟨[msg], ?_⟩
          rw [streamFinish_ok_writesOf tid none st2 st' h2, hsh]
          simp [List.append_assoc]
  | cons f rest ih =>
    intro msg st st' h
    rw [streamLoop_unfold] at h
    by_cases hm : msg = ""
    · rw [if_pos hm] at h
      exact ⟨[], by simpa using streamFinish_ok_writesOf tid none st st' h⟩
    · rw [if_neg hm] at h
      rcases loopIter_cases msg st with ⟨st2, e, heq, hsh⟩ | ⟨st2, heq, hsh⟩
      · rw [heq] at h
        have h2 : ((st2, some e) : SrvSt × Option GoError) = (st', none) := h
        exact absurd h2 (by simp)
      · rcases f with ⟨m, me⟩
        rcases heq with heq | heq <;> rw [heq] at h
        · have h2 : streamFinish tid none st2 = (st', none) := h
          refine ⟨[msg], ?_⟩
          rw [streamFinish_ok_writesOf tid none st2 st' h2, hsh]
          simp [List.append_assoc]
        · rcases me with _ | er
          · have h2 : streamLoop tid m rest st2 = (st', none) := h
            obtain ⟨D, hD⟩ := ih m st2 st' h2
            refine ⟨msg :: D, ?_⟩
            rw [hD, hsh]
            simp [List.append_assoc]
          · have h2 : (if m = "" then streamFinish tid (some er) st2
                else (st2, some er)) = (st', none) := h
            by_cases hm2 : m = ""
            · rw [if_pos hm2] at h2
              refine ⟨[msg], ?_⟩
              rw [streamFinish_ok_writesOf tid (some er) st2 st' h2, hsh]
              simp [List.append_assoc]
            · rw [if_neg hm2] at h2
              exact absurd h2 (by simp)

lemma stream_ok_writesOf (tid : String) (fetches : List Fetch) (st st' : SrvSt)
    (h : stream tid fetches st = (st', none)) :
    ∃ D : List String, writesOf st'.events
      = writesOf st.events ++ D.map Event.writeData ++ [Event.writeSentinel] := by
  rcases fetches with _ | ⟨⟨m, me⟩, rest⟩
  · exact streamLoop_ok_writesOf tid [] "" st st' h
  · rcases me with _ | er
    · exact streamLoop_ok_writesOf tid rest m st st' h
    · have h2 : ((st, some er) : SrvSt × Option GoError) = (st', none) := h
      exact absurd h2 (by simp)

lemma sentinelCount_data_append (D : List String) :
    sentinelCount (D.map Event.writeData ++ [Event.writeSentinel]) = 1 := by
  induction D with
  | nil => rfl
  | cons d D ih =>
    simpa [List.map_cons, List.cons_append, sentinelCount_cons] using ih

/-- Claim C2: every read request that the handler completes without error
produces a response body that is the concatenation of the written
instruction batches followed by the 3-byte sentinel `"0.;"`, with the
sentinel-write site executing exactly once — no matter how many batches
(zero or more) came before it. -/
theorem c2_read_success_sentinel_once (tid : String) (fetches : List Fetch)
    (st st' : SrvSt) (h0 : st.events = [])
    (h : doRead tid fetches st = (st', Outcome.ok)) :
    (∃ b, bodyOf st'.events = b ++ "0.;") ∧ sentinelCount st'.events = 1 := by
  simp only [doRead] at h
  by_cases hreg : tid ∈ st.reg
  swap
  · rw [if_neg hreg] at h
    exact absurd h (by simp)
  · rw [if_pos hreg] at h
    set st1 := if st.flusher then { st with events := st.events ++ [Event.flush] }
      else st with hst1
    have hw1 : writesOf st1.events = [] := by
      rw [hst1]
      split <;> simp [h0, writesOf_append, writesOf, List.filter_cons, isWrite]
    simp only [doReadBody] at h
    rcases hs : stream tid fetches st1 with ⟨st2, res⟩
    rw [hs] at h
    rcases res with _ | e
    · have h2 : ((st2, Outcome.ok) : SrvSt × Outcome) = (st', Outcome.ok) := h
      have hst' : st2 = st' := by
        simpa using congrArg Prod.fst h2
      obtain ⟨D, hD⟩ := stream_ok_writesOf tid fetches st1 st2 hs
      rw [hw1, hst'] at hD
      simp only [List.nil_append] at hD
      constructor
      · refine ⟨bodyOf (D.map Event.writeData), ?_⟩
        calc bodyOf st'.events
            = bodyOf (writesOf st'.events) := (bodyOf_writesOf _).symm
          _ = bodyOf (D.map Event.writeData ++ [Event.writeSentinel]) := by rw [hD]
          _ = bodyOf (D.map Event.writeData) ++ "0.;" := by
              rw [bodyOf_append]
              simp [bodyOf, evBytes, str_append_empty]
      · calc sentinelCount st'.events
            = sentinelCount (writesOf st'.events) := (sentinelCount_writesOf _).symm
          _ = 1 := by rw [hD]; exact sentinelCount_data_append D
    · rcases e with ⟨k, m⟩ | m
      · have h2 : (if k = ErrKind.ErrConnectionClosed then
            (readCCFinish (readTeardown tid st2),
              Outcome.error (GoError.ErrGuac k m))
            else (readTeardown tid st2, Outcome.error (GoError.ErrGuac k m)))
            = (st', Outcome.ok) := h
        by_cases hk : k = ErrKind.ErrConnectionClosed
        · rw [if_pos hk] at h2
          exact absurd h2 (by simp)
        · rw [if_neg hk] at h2
          exact absurd h2 (by simp)
      · have h2 : ((st2, Outcome.panicked) : SrvSt × Outcome) = (st', Outcome.ok) := h
        exact absurd h2 (by simp)

/-- The concrete environment of the C2 witness: one registered tunnel. -/
def c2env : SrvSt := { st0 with reg := [uuidA] }

/-- Witness for C2: a read of one instruction batch that ends the
response; the body is the batch followed by the sentinel, written
once. -/
theorem c2_witness :
    (∃ b, bodyOf (doRead uuidA [("4.test;", none)] c2env).1.events = b ++ "0.;") ∧
    sentinelCount (doRead uuidA [("4.test;", none)] c2env).1.events = 1 :=
  c2_read_success_sentinel_once uuidA [("4.test;", none)] c2env
    (doRead uuidA [("4.test;", none)] c2env).1 rfl (by decide)

/-! ### Loop-traversal lemmas for the teardown and yield claims -/

lemma iterNext_events_shape (msg : String) (st : SrvSt) :
    ∃ E, (iterNext msg st).events = st.events ++ E ∧
      ∀ ev ∈ E, (∃ s, ev = Event.writeData s) ∨ ev = Event.flush := by
  refine ⟨[Event.writeData msg] ++
    (if !(st.avail.headD false) && st.flusher then [Event.flush] else []), ?_, ?_⟩
  · simp [iterNext, List.append_assoc]
  · intro ev hev
    rcases List.mem_append.mp hev with hm | hm
    · simp only [List.mem_singleton] at hm
      exact Or.inl ⟨msg, hm⟩
    · split at hm
      · simp only [List.mem_singleton] at hm
        exact Or.inr hm
      · simp at hm

lemma streamLoop_reach_fail (tid : String) :
    ∀ (pre : List Fetch) (msg : String) (st : SrvSt) (m : String) (er : GoError)
      (rest : List Fetch), msg ≠ "" → st.writes = [] → st.queued = [] →
      (∀ p ∈ pre, p.1 ≠ "" ∧ p.2 = (none : Option GoError)) →
      ∃ st2, streamLoop tid msg (pre ++ (m, some er) :: rest) st
          = (if m = "" then streamFinish tid (some er) st2 else (st2, some er)) ∧
        st2.reg = st.reg ∧ st2.writes = [] ∧ st2.queued = [] ∧
        st2.flusher = st.flusher ∧ ∃ E, st2.events = st.events ++ E := by
  intro pre
  induction pre with
  | nil =>
    intro msg st m er rest hm hw hq _
    obtain ⟨E1, hE1, _⟩ := iterNext_events_shape msg st
    refine ⟨iterNext msg st, ?_, rfl, by simp [iterNext, hw], by simp [iterNext, hq],
      rfl, E1, hE1⟩
    simp only [List.nil_append]
    rw [streamLoop_unfold, if_neg hm, loopIter_eq msg st (by rw [hw]; rfl),
      if_neg (by rw [hq]; simp)]
  | cons p pre ih =>
    intro msg st m er rest hm hw hq hpre
    obtain ⟨mp, ep⟩ := p
    have hp := hpre (mp, ep) (List.mem_cons_self _ _)
    have hep : ep = none := hp.2
    subst hep
    obtain ⟨st2, hrun, hreg2, hw2, hq2, hf2, E2, hE2⟩ :=
      ih mp (iterNext msg st) m er rest hp.1 (by simp [iterNext, hw])
        (by simp [iterNext, hq]) (fun q hq' => hpre q (List.mem_cons_of_mem _ hq'))
    obtain ⟨E1, hE1, _⟩ := iterNext_events_shape msg st
    refine ⟨st2, ?_, by rw [hreg2]; rfl, hw2, hq2, hf2, E1 ++ E2, ?_⟩
    · simp only [List.cons_append]
      rw [streamLoop_unfold, if_neg hm, loopIter_eq msg st (by rw [hw]; rfl),
        if_neg (by rw [hq]; simp)]
      exact hrun
    · rw [hE2, hE1, List.append_assoc]

lemma streamLoop_yield (tid : String) :
    ∀ (pre : List Fetch) (msg : String) (st : SrvSt) (qtail : List Bool)
      (rest : List Fetch), msg ≠ "" → st.writes = [] →
      (∀ p ∈ pre, p.1 ≠ "" ∧ p.2 = (none : Option GoError)) →
      st.queued = List.replicate pre.length false ++ true :: qtail →
      ∃ st2, streamLoop tid msg (pre ++ rest) st = streamFinish tid none st2 ∧
        st2.reg = st.reg ∧ st2.writes = [] ∧ st2.flusher = st.flusher ∧
        ∃ E, st2.events = st.events ++ E ∧
          ∀ ev ∈ E, (∃ s, ev = Event.writeData s) ∨ ev = Event.flush := by
  intro pre
  induction pre with
  | nil =>
    intro msg st qtail rest hm hw _ hq
    refine ⟨iterNext msg st, ?_, rfl, by simp [iterNext, hw], rfl,
      iterNext_events_shape msg st⟩
    rcases rest with _ | ⟨⟨m2, e2⟩, rest2⟩
    · rw [streamLoop_unfold, if_neg hm, loopIter_eq msg st (by rw [hw]; rfl),
        if_pos (by rw [hq]; rfl)]
    · simp only [List.nil_append]
      rw [streamLoop_unfold, if_neg hm, loopIter_eq msg st (by rw [hw]; rfl),
        if_pos (by rw [hq]; rfl)]
  | cons p pre ih =>
    intro msg st qtail rest hm hw hpre hq
    obtain ⟨mp, ep⟩ := p
    have hp := hpre (mp, ep) (List.mem_cons_self _ _)
    have hep : ep = none := hp.2
    subst hep
    have hq' : st.queued = false :: (List.replicate pre.length false ++ true :: qtail) := by
      simpa [List.replicate_succ] using hq
    obtain ⟨st2, hrun, hreg2, hw2, hf2, E2, hE2, hEc2⟩ :=
      ih mp (iterNext msg st) qtail rest hp.1 (by simp [iterNext, hw])
        (fun q hq2 => hpre q (List.mem_cons_of_mem _ hq2))
        (by simp [iterNext, hq'])
    obtain ⟨E1, hE1, hEc1⟩ := iterNext_events_shape msg st
    refine ⟨st2, ?_, by rw [hreg2]; rfl, hw2, hf2, E1 ++ E2, ?_, ?_⟩
    · simp only [List.cons_append]
      rw [streamLoop_unfold, if_neg hm, loopIter_eq msg st (by rw [hw]; rfl),
        if_neg (by rw [hq']; simp)]
      exact hrun
    · rw [hE2, hE1, List.append_assoc]
    · intro ev hev
      rcases List.mem_append.mp hev with hm2 | hm2
      · exact hEc1 ev hm2
      · exact hEc2 ev hm2

lemma readCC_result (tid : String) (st2 : SrvSt) (hw2 : st2.writes = [])
    (hf2 : st2.flusher = true) :
    readCCFinish (readTeardown tid st2)
      = { st2 with
          reg := regRemove st2.reg tid, writes := [],
          events := st2.events ++ [Event.deregister tid, Event.closeTunnel tid,
            Event.writeSentinel, Event.flush] } := by
  rcases st2 with ⟨reg, avail, queued, writes, flusher, cr, co, cl, ev⟩
  simp only at hw2 hf2
  subst hw2
  subst hf2
  simp [readCCFinish, readTeardown, popW, List.append_assoc]

lemma readCCFinish_events_shape (st : SrvSt) :
    ∃ E, (readCCFinish st).events = st.events ++ E ∧
      ∀ ev ∈ E, ev = Event.writeSentinel ∨ ev = Event.flush := by
  rcases st with ⟨reg, avail, queued, writes, flusher, cr, co, cl, ev⟩
  rcases writes with _ | ⟨w, ws⟩
  · rcases flusher
    · exact ⟨[Event.writeSentinel], by simp [readCCFinish, popW], by simp⟩
    · exact ⟨[Event.writeSentinel, Event.flush],
        by simp [readCCFinish, popW], by simp⟩
  · rcases w with _ | wm
    · rcases flusher
      · exact ⟨[Event.writeSentinel], by simp [readCCFinish, popW], by simp⟩
      · exact ⟨[Event.writeSentinel, Event.flush],
          by simp [readCCFinish, popW], by simp⟩
    · rcases flusher
      · exact ⟨[], by simp [readCCFinish, popW], by simp⟩
      · exact ⟨[Event.flush], by simp [readCCFinish, popW], by simp⟩

lemma readCCFinish_reg (st : SrvSt) : (readCCFinish st).reg = st.reg := by
  rcases st with ⟨reg, avail, queued, writes, flusher, cr, co, cl, ev⟩
  rcases writes with _ | ⟨w, ws⟩
  · rcases flusher <;> simp [readCCFinish, popW]
  · rcases w with _ | wm <;> rcases flusher <;> simp [readCCFinish, popW]

/-- Claim C4: on a read request whose instruction-source fetch fails with
the `ErrConnectionClosed` kind — whether on the very first pull or after
any number of good batches — the tunnel is deregistered from the registry
and closed, and the end-of-instructions sentinel is still written and
flushed afterwards, as the final four events of the request. -/
theorem c4_connclosed_teardown_sentinel (tid : String) (pre : List Fetch)
    (m cm : String) (rest : List Fetch) (st st' : SrvSt) (out : Outcome)
    (hreg : tid ∈ st.reg) (hw : st.writes = []) (hq : st.queued = [])
    (hf : st.flusher = true)
    (hpre : ∀ p ∈ pre, p.1 ≠ "" ∧ p.2 = (none : Option GoError))
    (h : doRead tid
        (pre ++ (m, some (GoError.ErrGuac ErrKind.ErrConnectionClosed cm)) :: rest)
        st = (st', out)) :
    (∃ E, st'.events = E ++ [Event.deregister tid, Event.closeTunnel tid,
        Event.writeSentinel, Event.flush]) ∧ tid ∉ st'.reg := by
  simp only [doRead] at h
  rw [if_pos hreg] at h
  have hst1eq : (if st.flusher then { st with events := st.events ++ [Event.flush] }
      else st) = { st with events := st.events ++ [Event.flush] } := if_pos hf
  rw [hst1eq] at h
  simp only [doReadBody] at h
  set st1 := { st with events := st.events ++ [Event.flush] } with hst1
  have hw1 : st1.writes = [] := hw
  have hq1 : st1.queued = [] := hq
  have hf1 : st1.flusher = true := hf
  rcases pre with _ | ⟨⟨mp, ep⟩, pre2⟩
  · have hs : stream tid
        ([] ++ (m, some (GoError.ErrGuac ErrKind.ErrConnectionClosed cm)) :: rest) st1
        = (st1, some (GoError.ErrGuac ErrKind.ErrConnectionClosed cm)) := rfl
    rw [hs] at h
    have h2 : (if ErrKind.ErrConnectionClosed = ErrKind.ErrConnectionClosed then
        (readCCFinish (readTeardown tid st1),
          Outcome.error (GoError.ErrGuac ErrKind.ErrConnectionClosed cm))
        else (readTeardown tid st1,
          Outcome.error (GoError.ErrGuac ErrKind.ErrConnectionClosed cm)))
        = (st', out) := h
    rw [if_pos rfl] at h2
    have hst' : st' = readCCFinish (readTeardown tid st1) := by
      simpa using (congrArg Prod.fst h2).symm
    rw [readCC_result tid st1 hw1 hf1] at hst'
    subst hst'
    exact ⟨⟨st1.events, rfl⟩, not_mem_regRemove st1.reg tid⟩
  · have hp := hpre (mp, ep) (List.mem_cons_self _ _)
    have hep : ep = none := hp.2
    subst hep
    obtain ⟨st2, hrun, hreg2, hw2, hq2, hf2, E2, hE2⟩ :=
      streamLoop_reach_fail tid pre2 mp st1 m
        (GoError.ErrGuac ErrKind.ErrConnectionClosed cm) rest hp.1 hw1 hq1
        (fun q hq2 => hpre q (List.mem_cons_of_mem _ hq2))
    have hs : stream tid
        (((mp, none) :: pre2) ++
          (m, some (GoError.ErrGuac ErrKind.ErrConnectionClosed cm)) :: rest) st1
        = streamLoop tid mp
          (pre2 ++ (m, some (GoError.ErrGuac ErrKind.ErrConnectionClosed cm)) :: rest)
          st1 := rfl
    rw [hs, hrun] at h
    have hf2' : st2.flusher = true := by rw [hf2]; exact hf1
    by_cases hm0 : m = ""
    · rw [if_pos hm0] at h
      rw [streamFinish_some_eq tid
        (GoError.ErrGuac ErrKind.ErrConnectionClosed cm) st2 hw2] at h
      have hflush : (if st2.flusher then [Event.flush] else ([] : List Event))
          = [Event.flush] := if_pos hf2'
      rw [hflush] at h
      have h2 : (({ st2 with
          reg := regRemove st2.reg tid,
          events := st2.events ++ [Event.deregister tid, Event.closeTunnel tid,
            Event.writeSentinel] ++ [Event.flush] } : SrvSt), Outcome.ok)
          = (st', out) := h
      have hst' : st' = { st2 with
          reg := regRemove st2.reg tid,
          events := st2.events ++ [Event.deregister tid, Event.closeTunnel tid,
            Event.writeSentinel] ++ [Event.flush] } := by
        simpa using (congrArg Prod.fst h2).symm
      subst hst'
      refine ⟨⟨st2.events, ?_⟩, not_mem_regRemove st2.reg tid⟩
      show st2.events ++ [Event.deregister tid, Event.closeTunnel tid,
        Event.writeSentinel] ++ [Event.flush] = _
      simp [List.append_assoc]
    · rw [if_neg hm0] at h
      have h2 : (if ErrKind.ErrConnectionClosed = ErrKind.ErrConnectionClosed then
          (readCCFinish (readTeardown tid st2),
            Outcome.error (GoError.ErrGuac ErrKind.ErrConnectionClosed cm))
          else (readTeardown tid st2,
            Outcome.error (GoError.ErrGuac ErrKind.ErrConnectionClosed cm)))
          = (st', out) := h
      rw [if_pos rfl] at h2
      have hst' : st' = readCCFinish (readTeardown tid st2) := by
        simpa using (congrArg Prod.fst h2).symm
      rw [readCC_result tid st2 hw2 hf2'] at hst'
      subst hst'
      exact ⟨⟨st2.events, rfl⟩, not_mem_regRemove st2.reg tid⟩

/-- The concrete environment of the C4 witness. -/
def c4env : SrvSt := { st0 with reg := [uuidA] }

/-- Witness for C4: one good batch, then a connection-closed fetch; the
trace ends with deregister, close, sentinel, flush, and the identity is
gone from the registry. -/
theorem c4_witness :
    (∃ E, (doRead uuidA
        [("5.hello;", none),
          ("", some (GoError.ErrGuac ErrKind.ErrConnectionClosed "closed"))]
        c4env).1.events
      = E ++ [Event.deregister uuidA, Event.closeTunnel uuidA,
          Event.writeSentinel, Event.flush]) ∧
    uuidA ∉ (doRead uuidA
        [("5.hello;", none),
          ("", some (GoError.ErrGuac ErrKind.ErrConnectionClosed "closed"))]
        c4env).1.reg :=
  c4_connclosed_teardown_sentinel uuidA [("5.hello;", none)] "" "closed" [] c4env
    _ _ (by decide) rfl rfl rfl (by decide) rfl

/-- Claim C5: a read request that ends because the queued-readers signal
fired (after at least one batch, with no fetch failure) returns success,
never emits a deregister or close event, and leaves the registry — and in
particular the tunnel's identity — exactly as it was, so the next read
request can resume the tunnel. -/
theorem c5_yield_keeps_tunnel (tid m0 : String) (pre : List Fetch)
    (qtail : List Bool) (rest : List Fetch) (st st' : SrvSt) (out : Outcome)
    (hreg : tid ∈ st.reg) (hw : st.writes = []) (hm0 : m0 ≠ "")
    (hpre : ∀ p ∈ pre, p.1 ≠ "" ∧ p.2 = (none : Option GoError))
    (hq : st.queued = List.replicate pre.length false ++ true :: qtail)
    (h : doRead tid ((m0, none) :: (pre ++ rest)) st = (st', out)) :
    out = Outcome.ok ∧ st'.reg = st.reg ∧ tid ∈ st'.reg ∧
    ∃ E, st'.events = st.events ++ E ∧
      ∀ ev ∈ E, ∀ u, ev ≠ Event.deregister u ∧ ev ≠ Event.closeTunnel u := by
  simp only [doRead] at h
  rw [if_pos hreg] at h
  simp only [doReadBody] at h
  set st1 := if st.flusher then { st with events := st.events ++ [Event.flush] } else st
    with hst1
  have hw1 : st1.writes = [] := by rw [hst1]; split <;> exact hw
  have hq1 : st1.queued = List.replicate pre.length false ++ true :: qtail := by
    rw [hst1]; split <;> exact hq
  have hreg1 : st1.reg = st.reg := by rw [hst1]; split <;> rfl
  have hE0 : ∃ E0, st1.events = st.events ++ E0 ∧ ∀ ev ∈ E0, ev = Event.flush := by
    rw [hst1]; split
    · exact ⟨[Event.flush], rfl, by simp⟩
    · exact ⟨[], by simp, by simp⟩
  obtain ⟨E0, hE0eq, hE0c⟩ := hE0
  obtain ⟨st2, hrun, hreg2, hw2, hf2, E2, hE2, hEc2⟩ :=
    streamLoop_yield tid pre m0 st1 qtail rest hm0 hw1 hpre hq1
  have hs : stream tid ((m0, none) :: (pre ++ rest)) st1
      = streamLoop tid m0 (pre ++ rest) st1 := rfl
  rw [hs, hrun] at h
  rw [streamFinish_none_eq tid st2 hw2] at h
  have h2 : (({ st2 with
      events := st2.events ++ [Event.writeSentinel] ++
        (if st2.flusher then [Event.flush] else []) } : SrvSt), Outcome.ok)
      = (st', out) := h
  have hst' : st' = { st2 with
      events := st2.events ++ [Event.writeSentinel] ++
        (if st2.flusher then [Event.flush] else []) } := by
    simpa using (congrArg Prod.fst h2).symm
  have hout : out = Outcome.ok := by simpa using (congrArg Prod.snd h2).symm
  refine ⟨hout, ?_, ?_, ?_⟩
  · rw [hst']
    show st2.reg = st.reg
    rw [hreg2, hreg1]
  · rw [hst']
    show tid ∈ st2.reg
    rw [hreg2, hreg1]
    exact hreg
  · refine ⟨E0 ++ E2 ++ ([Event.writeSentinel] ++
      (if st2.flusher then [Event.flush] else [])), ?_, ?_⟩
    · rw [hst']
      show st2.events ++ [Event.writeSentinel] ++
        (if st2.flusher then [Event.flush] else []) = _
      rw [hE2, hE0eq]
      simp [List.append_assoc]
    · intro ev hev u
      rcases List.mem_append.mp hev with hm2 | hm2
      · rcases List.mem_append.mp hm2 with hm3 | hm3
        · have hevf := hE0c ev hm3
          exact ⟨by simp [hevf], by simp [hevf]⟩
        · rcases hEc2 ev hm3 with ⟨s, hevd⟩ | hevf
          · exact ⟨by simp [hevd], by simp [hevd]⟩
          · exact ⟨by simp [hevf], by simp [hevf]⟩
      · rcases List.mem_append.mp hm2 with hm3 | hm3
        · simp only [List.mem_singleton] at hm3
          exact ⟨by simp [hm3], by simp [hm3]⟩
        · split at hm3
          · simp only [List.mem_singleton] at hm3
            exact ⟨by simp [hm3], by simp [hm3]⟩
          · simp at hm3

/-- The concrete environment of the C5 witness: the queued-readers signal
fires on the second iteration. -/
def c5env : SrvSt := { st0 with reg := [uuidA], queued := [false, true] }

/-- Witness for C5: two batches, then the yield; the request succeeds and
the tunnel stays registered with no teardown events. -/
theorem c5_witness :
    (doRead uuidA [("4.one;", none), ("4.two;", none)] c5env).2 = Outcome.ok ∧
    (doRead uuidA [("4.one;", none), ("4.two;", none)] c5env).1.reg = c5env.reg ∧
    uuidA ∈ (doRead uuidA [("4.one;", none), ("4.two;", none)] c5env).1.reg ∧
    ∃ E, (doRead uuidA [("4.one;", none), ("4.two;", none)] c5env).1.events
        = c5env.events ++ E ∧
      ∀ ev ∈ E, ∀ u, ev ≠ Event.deregister u ∧ ev ≠ Event.closeTunnel u :=
  c5_yield_keeps_tunnel uuidA "4.one;" [("4.two;", none)] [] [] c5env _ _
    (by decide) rfl (by decide) (by decide) rfl rfl

/-- Claim C6: when the very first pull from the instruction source fails
with a tagged error of any kind, the failure is propagated with no
instruction bytes ever written to the response body, and the caller
deregisters the tunnel and closes it. -/
theorem c6_first_pull_failure (tid : String) (k : ErrKind) (em msg : String)
    (rest : List Fetch) (st st' : SrvSt) (out : Outcome)
    (hreg : tid ∈ st.reg) (hev : st.events = [])
    (h : doRead tid ((msg, some (GoError.ErrGuac k em)) :: rest) st = (st', out)) :
    out = Outcome.error (GoError.ErrGuac k em) ∧
    (∀ s, Event.writeData s ∉ st'.events) ∧
    Event.deregister tid ∈ st'.events ∧ Event.closeTunnel tid ∈ st'.events ∧
    tid ∉ st'.reg := by
  simp only [doRead] at h
  rw [if_pos hreg] at h
  simp only [doReadBody] at h
  set st1 := if st.flusher then { st with events := st.events ++ [Event.flush] } else st
    with hst1
  have hs : stream tid ((msg, some (GoError.ErrGuac k em)) :: rest) st1
      = (st1, some (GoError.ErrGuac k em)) := rfl
  rw [hs] at h
  have h2 : (if k = ErrKind.ErrConnectionClosed then
      (readCCFinish (readTeardown tid st1), Outcome.error (GoError.ErrGuac k em))
      else (readTeardown tid st1, Outcome.error (GoError.ErrGuac k em)))
      = (st', out) := h
  have h1ev : ∀ s, Event.writeData s ∉ st1.events := by
    intro s
    rw [hst1]
    split <;> simp [hev]
  have hteq : (readTeardown tid st1).events
      = st1.events ++ [Event.deregister tid, Event.closeTunnel tid] := rfl
  by_cases hk : k = ErrKind.ErrConnectionClosed
  · rw [if_pos hk] at h2
    have hst' : st' = readCCFinish (readTeardown tid st1) := by
      simpa using (congrArg Prod.fst h2).symm
    have hout : out = Outcome.error (GoError.ErrGuac k em) := by
      simpa using (congrArg Prod.snd h2).symm
    obtain ⟨E, hE, hEc⟩ := readCCFinish_events_shape (readTeardown tid st1)
    refine ⟨hout, ?_, ?_, ?_, ?_⟩
    · intro s hmem
      rw [hst', hE, hteq] at hmem
      rcases List.mem_append.mp hmem with hm2 | hm2
      · rcases List.mem_append.mp hm2 with hm3 | hm3
        · exact h1ev s hm3
        · simp at hm3
      · rcases hEc _ hm2 with h3 | h3 <;> simp at h3
    · rw [hst', hE, hteq]
      simp
    · rw [hst', hE, hteq]
      simp
    · rw [hst', readCCFinish_reg]
      exact not_mem_regRemove st1.reg tid
  · rw [if_neg hk] at h2
    have hst' : st' = readTeardown tid st1 := by
      simpa using (congrArg Prod.fst h2).symm
    have hout : out = Outcome.error (GoError.ErrGuac k em) := by
      simpa using (congrArg Prod.snd h2).symm
    refine ⟨hout, ?_, ?_, ?_, ?_⟩
    · intro s hmem
      rw [hst', hteq] at hmem
      rcases List.mem_append.mp hmem with hm2 | hm2
      · exact h1ev s hm2
      · simp at hm2
    · rw [hst', hteq]
      simp
    · rw [hst', hteq]
      simp
    · rw [hst']
      exact not_mem_regRemove st1.reg tid

/-- The concrete environment of the C6 witness. -/
def c6env : SrvSt := { st0 with reg := [uuidA] }

/-- Witness for C6: the first pull fails with the connection-closed kind;
no instruction bytes are written and the tunnel is torn down. -/
theorem c6_witness :
    (doRead uuidA [("", some (GoError.ErrGuac ErrKind.ErrConnectionClosed "eof"))]
        c6env).2
      = Outcome.error (GoError.ErrGuac ErrKind.ErrConnectionClosed "eof") ∧
    (∀ s, Event.writeData s ∉ (doRead uuidA
        [("", some (GoError.ErrGuac ErrKind.ErrConnectionClosed "eof"))] c6env).1.events) ∧
    Event.deregister uuidA ∈ (doRead uuidA
        [("", some (GoError.ErrGuac ErrKind.ErrConnectionClosed "eof"))] c6env).1.events ∧
    Event.closeTunnel uuidA ∈ (doRead uuidA
        [("", some (GoError.ErrGuac ErrKind.ErrConnectionClosed "eof"))] c6env).1.events ∧
    uuidA ∉ (doRead uuidA
        [("", some (GoError.ErrGuac ErrKind.ErrConnectionClosed "eof"))] c6env).1.reg :=
  c6_first_pull_failure uuidA ErrKind.ErrConnectionClosed "eof" "" [] c6env _ _
    (by decide) rfl rfl
